import Mathlib

/-!
Shallow embedding of the validator-identifier resolver
(`src/util/validators.go`: `ParseValidators`, `ParseValidator`) and of the
wallet shared-import input collector
(`src/cmd/wallet/sharedimport/input.go`: `input`).

Go strings are modelled as `String` / `List Char`; `uint64` values as `Nat`
with explicit bounds checks where the code performs them; Go errors as an
inductive `Err` mirroring the distinct error constructions of the source
(`errors.New`, `errors.Wrap`, `fmt.Errorf`, `strconv` and `encoding/hex`
errors).  Calls to the external `ValidatorsProvider` collaborator are
recorded in a trace, so that "issues exactly one lookup call with set S"
becomes a statement about the trace.  The `for index := low; index <= high;
index++` loop over `uint64` in `ParseValidators` does not terminate when
`high = 2^64 - 1` and `low ≤ high` (the increment wraps to `0`); the
embedding makes this explicit by returning `none` exactly in that case.
-/

namespace Ethdo

/-- Kind of a `strconv` numeric-parse failure (`ErrSyntax` / `ErrRange`). -/
inductive NumErrKind where
  | invalidSyntax
  | outOfRange
  deriving DecidableEq, Repr

/-- Go errors as built by the source: `errors.New` / collaborator errors
(`simple`), `errors.Wrap(cause, msg)` (`wrap`), `fmt.Errorf("...%s", arg)`
(`errorf1`, message is `pre ++ arg`), `strconv.NumError` (`numError`), and
the two `encoding/hex` decode errors. -/
inductive Err where
  | simple (msg : String)
  | wrap (msg : String) (cause : Err)
  | errorf1 (pre : String) (arg : String)
  | numError (fn : String) (input : String) (kind : NumErrKind)
  | hexInvalidByte (c : Char)
  | hexLength
  deriving DecidableEq, Repr

/-- A validator record (`apiv1.Validator`): opaque to the resolver, which
only forwards it.  Conceptually keyed by its index. -/
structure Validator where
  index : Nat
  deriving DecidableEq, Repr

/-- A BLS public key buffer (`phase0.BLSPubKey`, 48 bytes), modelled as its
byte list. -/
def BLSPubKey := List Nat
deriving DecidableEq, Repr

/-- One call issued to the `eth2client.ValidatorsProvider` collaborator. -/
inductive ProviderCall where
  | byIndex (stateID : String) (indices : List Nat)
  | byPubKey (stateID : String) (keys : List BLSPubKey)
  deriving DecidableEq, Repr

/-- The `eth2client.ValidatorsProvider` collaborator: `Validators` (lookup
by index set) and `ValidatorsByPubKey` (lookup by public-key set).  Each
returns the entries of the result map in iteration order. -/
structure ValidatorsProvider where
  validators : String → List Nat → Except Err (List Validator)
  validatorsByPubKey : String → List BLSPubKey → Except Err (List Validator)

/-- An account handle, opaque to the resolver. -/
abbrev Account : Type := Nat

/-- A wallet handle, opaque to the resolver. -/
abbrev Wallet : Type := Nat

/-- Modelled from the spec: the account-resolution collaborators
`WalletAndAccountFromPath` (`(context, pathString) → (wallet, account) or
failure`) and `BestPublicKey` followed by `Marshal` (`(account) →
publicKeyBytes or failure`), which live in the `util` package outside the
provided source slice. -/
structure AccountEnv where
  walletAndAccountFromPath : String → Except Err (Wallet × Account)
  bestPublicKey : Account → Except Err (List Nat)

/-- Go `strings.Split(s, sep)` for a single-character separator `sep`. -/
def goSplitChars (c : Char) : List Char → List (List Char)
  | [] => [[]]
  | ch :: rest =>
    if ch = c then [] :: goSplitChars c rest
    else
      match goSplitChars c rest with
      | [] => [[ch]]
      | l :: ls => (ch :: l) :: ls

/-- Go `strings.Split` on a `String`, single-character separator. -/
def goSplit (s : String) (c : Char) : List String :=
  (goSplitChars c s.toList).map (fun l => String.mk l)

/-- Go `strings.Contains(s, string(c))` for a single character. -/
def goContains (s : String) (c : Char) : Bool :=
  s.toList.contains c

/-- Go `strings.HasPrefix(s, "0x")`. -/
def goStartsWith0x (s : String) : Bool :=
  match s.toList with
  | '0' :: 'x' :: _ => true
  | _ => false

/-- Go `strings.TrimPrefix(s, "0x")`, as the remaining character list. -/
def goTrim0x (s : String) : List Char :=
  match s.toList with
  | '0' :: 'x' :: rest => rest
  | cs => cs

/-- Numeric value of a decimal digit string (all characters known digits). -/
def digitsVal (cs : List Char) : Nat :=
  cs.foldl (fun acc c => acc * 10 + (c.toNat - 48)) 0

/-- Go `strconv.ParseUint(s, 10, 64)`: base-10 digits only, no sign, no
underscores; `ErrSyntax` on empty or non-digit input, `ErrRange` when the
value exceeds `2^64 - 1`. -/
def parseUint64 (s : String) : Except NumErrKind Nat :=
  let cs := s.toList
  if cs = [] then .error .invalidSyntax
  else if cs.all (fun c => c.isDigit) then
    let n := digitsVal cs
    if n ≤ 2 ^ 64 - 1 then .ok n else .error .outOfRange
  else .error .invalidSyntax

/-- Value of a hexadecimal digit character, per `encoding/hex.fromHexChar`. -/
def hexDigitVal (c : Char) : Option Nat :=
  if '0' ≤ c ∧ c ≤ '9' then some (c.toNat - 48)
  else if 'a' ≤ c ∧ c ≤ 'f' then some (c.toNat - 97 + 10)
  else if 'A' ≤ c ∧ c ≤ 'F' then some (c.toNat - 65 + 10)
  else none

/-- Go `hex.DecodeString`: decode pairs of hex digits; report the first
invalid byte, or `ErrLength` on a trailing valid digit (odd length). -/
def hexDecode : List Char → Except Err (List Nat)
  | [] => .ok []
  | [c] =>
    match hexDigitVal c with
    | none => .error (.hexInvalidByte c)
    | some _ => .error .hexLength
  | c1 :: c2 :: rest =>
    match hexDigitVal c1 with
    | none => .error (.hexInvalidByte c1)
    | some h =>
      match hexDigitVal c2 with
      | none => .error (.hexInvalidByte c2)
      | some l =>
        match hexDecode rest with
        | .error e => .error e
        | .ok bs => .ok ((h * 16 + l) :: bs)

/-- Go `pubKey := phase0.BLSPubKey{}; copy(pubKey[:], data)`: a fixed-size
zero-initialised buffer of `n` bytes receiving `min n data.length` bytes
of `data`. -/
def copyToFixed (n : Nat) (data : List Nat) : List Nat :=
  data.take n ++ List.replicate (n - data.length) 0

/-- The trailing loop of `ParseValidator` ("Validator is first entry in the
map."): return the first iterated entry of the result map, or
`errors.New("unknown validator")` when the map is empty. -/
def firstEntry : List Validator → Except Err Validator
  | [] => .error (.simple "unknown validator")
  | v :: _ => .ok v

/-- Function `ParseValidator` (`src/util/validators.go:71-133`): dispatch on the
identifier string (`0x` public key, then `/` account path, then decimal
index), issue one collaborator lookup with a one-element set, and return
the first entry of the result map.  The second component is the trace of
provider calls issued. -/
def ParseValidator (env : AccountEnv) (p : ValidatorsProvider)
    (validatorStr stateID : String) :
    Except Err Validator × List ProviderCall :=
  if goStartsWith0x validatorStr then
    match hexDecode (goTrim0x validatorStr) with
    | .error e => (.error (.wrap "failed to parse validator public key" e), [])
    | .ok data =>
      let pubKey : BLSPubKey := copyToFixed 48 data
      match p.validatorsByPubKey stateID [pubKey] with
      | .error e =>
        (.error (.wrap "failed to obtain validator information" e),
         [.byPubKey stateID [pubKey]])
      | .ok vs => (firstEntry vs, [.byPubKey stateID [pubKey]])
  else if goContains validatorStr '/' then
    match env.walletAndAccountFromPath validatorStr with
    | .error e => (.error (.wrap "unable to obtain account" e), [])
    | .ok (_, account) =>
      match env.bestPublicKey account with
      | .error e => (.error (.wrap "unable to obtain public key for account" e), [])
      | .ok accPubKeyBytes =>
        let pubKey : BLSPubKey := copyToFixed 48 accPubKeyBytes
        match p.validatorsByPubKey stateID [pubKey] with
        | .error e =>
          (.error (.wrap "failed to obtain validator information" e),
           [.byPubKey stateID [pubKey]])
        | .ok vs => (firstEntry vs, [.byPubKey stateID [pubKey]])
  else
    match parseUint64 validatorStr with
    | .error k =>
      (.error (.wrap "failed to parse validator index"
        (.numError "ParseUint" validatorStr k)), [])
    | .ok index =>
      match p.validators stateID [index] with
      | .error e =>
        (.error (.wrap "failed to obtain validator information" e),
         [.byIndex stateID [index]])
      | .ok vs => (firstEntry vs, [.byIndex stateID [index]])

/-- One iteration of the `ParseValidators` loop for identifier `s`: the
records this element contributes (or the failure), plus the provider calls
issued.  `none` models nontermination of the index-building loop
(`for index := low; index <= high; index++` over `uint64` never exits when
`high = 2^64 - 1` and `low ≤ high`, because the increment wraps to `0`). -/
def parseValidatorsStep (env : AccountEnv) (p : ValidatorsProvider)
    (stateID s : String) :
    Option (Except Err (List Validator) × List ProviderCall) :=
  if goContains s '-' then
    match goSplit s '-' with
    | [b0, b1] =>
      match parseUint64 b0 with
      | .error k =>
        some (.error (.wrap "invalid range start" (.numError "ParseUint" b0 k)), [])
      | .ok low =>
        match parseUint64 b1 with
        | .error k =>
          some (.error (.wrap "invalid range end" (.numError "ParseUint" b1 k)), [])
        | .ok high =>
          if low ≤ high ∧ high = 2 ^ 64 - 1 then none
          else
            let indices := List.range' low (high + 1 - low)
            match p.validators stateID indices with
            | .error e =>
              some (.error (.wrap ("failed to obtain validators " ++ s) e),
                    [.byIndex stateID indices])
            | .ok vs => some (.ok vs, [.byIndex stateID indices])
    | _ => some (.error (.errorf1 "invalid range " s), [])
  else
    match ParseValidator env p s stateID with
    | (.error e, calls) =>
      some (.error (.wrap ("unknown validator " ++ s) e), calls)
    | (.ok v, calls) => some (.ok [v], calls)

/-- Function `ParseValidators` (`src/util/validators.go:30-68`): process identifiers
in input order, appending each element's contribution; any failure aborts
the whole call with only that failure (the Go function returns `nil` for
the list).  `none` models nontermination (see `parseValidatorsStep`). -/
def ParseValidators (env : AccountEnv) (p : ValidatorsProvider)
    (validatorsStr : List String) (stateID : String) :
    Option (Except Err (List Validator) × List ProviderCall) :=
  match validatorsStr with
  | [] => some (.ok [], [])
  | s :: rest =>
    match parseValidatorsStep env p stateID s with
    | none => none
    | some (.error e, calls) => some (.error e, calls)
    | some (.ok vs, calls) =>
      match ParseValidators env p rest stateID with
      | none => none
      | some (.error e, calls2) => some (.error e, calls ++ calls2)
      | some (.ok vs2, calls2) => some (.ok (vs ++ vs2), calls ++ calls2)

/-- Rendering of a `NumErrKind`, per `strconv` (`ErrSyntax` / `ErrRange`). -/
def numErrKindStr : NumErrKind → String
  | .invalidSyntax => "invalid syntax"
  | .outOfRange => "value out of range"

/-- Rendering of an error chain as Go's `Error()` string: `errors.Wrap`
renders `msg ++ ": " ++ cause`, `strconv.NumError` renders
`strconv.Fn: parsing "input": cause`.  The `encoding/hex` invalid-byte
message abbreviates Go's `%#U` byte formatting. -/
def errString : Err → String
  | .simple msg => msg
  | .wrap msg cause => msg ++ ": " ++ errString cause
  | .errorf1 pre arg => pre ++ arg
  | .numError fn input kind =>
    "strconv." ++ fn ++ ": parsing \"" ++ input ++ "\": " ++ numErrKindStr kind
  | .hexInvalidByte c => "encoding/hex: invalid byte: " ++ String.mk [c]
  | .hexLength => "encoding/hex: odd length hex string"

/-- Whether `sub` matches at the head of `s`. -/
def leadMatch : List Char → List Char → Bool
  | [], _ => true
  | _ :: _, [] => false
  | a :: as, b :: bs => a = b && leadMatch as bs

/-- Whether `sub` occurs as a contiguous substring of `s`. -/
def hasSub (sub : List Char) : List Char → Bool
  | [] => leadMatch sub []
  | c :: t => leadMatch sub (c :: t) || hasSub sub t

/-- Whether the rendered message of the error chain `e` contains the
identifier `ident` as a substring. -/
def errMentions (e : Err) (ident : String) : Bool :=
  hasSub ident.toList (errString e).toList

/-- A deterministic in-memory provider for concrete runs: lookup by index
returns one record per requested index, lookup by public key returns a
single fixed record per requested key. -/
def fixedProvider : ValidatorsProvider where
  validators := fun _ idxs => .ok (idxs.map fun i => ⟨i⟩)
  validatorsByPubKey := fun _ keys => .ok (keys.map fun _ => ⟨7⟩)

/-- A provider that answers every index lookup, including one with the
empty index set, with the single record of index 9. -/
def phantomProvider : ValidatorsProvider where
  validators := fun _ _ => .ok [⟨9⟩]
  validatorsByPubKey := fun _ _ => .ok [⟨9⟩]

/-- A provider whose lookups always fail. -/
def failingProvider : ValidatorsProvider where
  validators := fun _ _ => .error (.simple "connection refused")
  validatorsByPubKey := fun _ _ => .error (.simple "connection refused")

/-- A provider whose lookups always succeed with an empty match map. -/
def emptyProvider : ValidatorsProvider where
  validators := fun _ _ => .ok []
  validatorsByPubKey := fun _ _ => .ok []

/-- An environment whose account resolution always fails. -/
def noAccountEnv : AccountEnv where
  walletAndAccountFromPath := fun _ => .error (.simple "wallet not found")
  bestPublicKey := fun _ => .error (.simple "no key")

/-- An environment resolving the path "wallet/account" to account 5, whose
best public key marshals to the three bytes 1, 2, 3. -/
def oneAccountEnv : AccountEnv where
  walletAndAccountFromPath := fun s =>
    if s = "wallet/account" then .ok (0, 5) else .error (.simple "wallet not found")
  bestPublicKey := fun _ => .ok [1, 2, 3]

namespace WalletSharedImport

/-- The configuration values the `input` function reads from `viper`
(`remote`, `timeout`, `quiet`, `verbose`, `debug`, `file`, `shares`);
`timeout` is a duration in nanoseconds, as `time.Duration`. -/
structure Config where
  remote : String
  timeout : Nat
  quiet : Bool
  verbose : Bool
  debug : Bool
  file : String
  shares : List String

/-- The `dataIn` structure of `src/cmd/wallet/sharedimport/input.go`;
`file` holds the bytes read from the wallet import file. -/
structure dataIn where
  timeout : Nat
  quiet : Bool
  verbose : Bool
  debug : Bool
  file : List Nat
  shares : List String
  deriving DecidableEq, Repr

/-- Function `input` (`src/cmd/wallet/sharedimport/input.go:35-67`):
collect and validate the shared-import inputs; `readFile` models
`os.ReadFile`. -/
def input (cfg : Config) (readFile : String → Except Err (List Nat)) :
    Except Err dataIn :=
  if cfg.remote ≠ "" then
    .error (.simple "wallet import not available for remote wallets")
  else if cfg.timeout = 0 then
    .error (.simple "timeout is required")
  else if cfg.file = "" then
    .error (.simple "file is required")
  else
    match readFile cfg.file with
    | .error e => .error (.wrap "failed to read wallet import file" e)
    | .ok contents =>
      if cfg.shares = [] then
        .error (.simple "failed to obtain shares")
      else
        .ok ⟨cfg.timeout, cfg.quiet, cfg.verbose, cfg.debug, contents, cfg.shares⟩

end WalletSharedImport

/-! ### Helper lemmas -/

theorem copyToFixed_length (n : Nat) (data : List Nat) :
    (copyToFixed n data).length = n := by
  simp only [copyToFixed, List.length_append, List.length_take, List.length_replicate]
  omega

theorem leadMatch_append (l r : List Char) : leadMatch l (l ++ r) = true := by
  induction l with
  | nil => rfl
  | cons c t ih => simp [leadMatch, ih]

theorem hasSub_leadMatch (t s : List Char) (h : leadMatch t s = true) :
    hasSub t s = true := by
  cases s with
  | nil =>
    cases t with
    | nil => rfl
    | cons a as => exact absurd h (by simp [leadMatch])
  | cons c s' =>
    show (leadMatch t (c :: s') || hasSub t s') = true
    rw [h, Bool.true_or]

theorem hasSub_append_right (pre t post : List Char) :
    hasSub t (pre ++ (t ++ post)) = true := by
  induction pre with
  | nil =>
    rw [List.nil_append]
    exact hasSub_leadMatch t (t ++ post) (leadMatch_append t post)
  | cons c cs ih =>
    rw [List.cons_append]
    show (leadMatch t (c :: (cs ++ (t ++ post))) || hasSub t (cs ++ (t ++ post))) = true
    rw [ih, Bool.or_true]

theorem errMentions_wrap (pre s : String) (cause : Err) :
    errMentions (.wrap (pre ++ s) cause) s = true := by
  have h := hasSub_append_right pre.data s.data (": " ++ errString cause).data
  simpa [errMentions, errString, String.toList, String.data_append,
    List.append_assoc] using h

/-! ### C1: range resolution with low ≤ high -/

/-- C1 (amended): for every range identifier "low-high" with `low ≤ high`
and `high < 2^64 - 1`, `ParseValidators` issues exactly one index lookup
whose index set is the full inclusive set of indices from `low` to `high`,
and the identifier's contribution is exactly the record list the provider
returns.  (The amendment excludes `high = 2^64 - 1`: there the uint64 index
loop never terminates, see the counterexample.) -/
theorem parseValidators_range_single_call
    (env : AccountEnv) (p : ValidatorsProvider) (stateID s b0 b1 : String)
    (low high : Nat) (vs : List Validator)
    (hc : goContains s '-' = true)
    (hsp : goSplit s '-' = [b0, b1])
    (hl : parseUint64 b0 = .ok low)
    (hh : parseUint64 b1 = .ok high)
    (hle : low ≤ high)
    (hmax : high < 2 ^ 64 - 1)
    (hp : p.validators stateID (List.range' low (high + 1 - low)) = .ok vs) :
    ParseValidators env p [s] stateID =
      some (.ok vs, [.byIndex stateID (List.range' low (high + 1 - low))])
    ∧ (∀ i : Nat, i ∈ List.range' low (high + 1 - low) ↔ (low ≤ i ∧ i ≤ high)) := by
  have hlit : (2 : Nat) ^ 64 - 1 = 18446744073709551615 := by norm_num
  rw [hlit] at hmax
  have hcond : ¬(low ≤ high ∧ high = 18446744073709551615) := by omega
  constructor
  · simp [ParseValidators, parseValidatorsStep, hc, hsp, hl, hh, hcond, hp]
  · intro i
    rw [List.mem_range'_1]
    omega

/-- C1 witness: the amended statement at "10-12" against the fixed
provider. -/
theorem parseValidators_range_single_call_witness :
    ParseValidators noAccountEnv fixedProvider ["10-12"] "head" =
      some (.ok [⟨10⟩, ⟨11⟩, ⟨12⟩],
        [.byIndex "head" (List.range' 10 (12 + 1 - 10))])
    ∧ (∀ i : Nat, i ∈ List.range' 10 (12 + 1 - 10) ↔ (10 ≤ i ∧ i ≤ 12)) :=
  parseValidators_range_single_call noAccountEnv fixedProvider "head" "10-12"
    "10" "12" 10 12 [⟨10⟩, ⟨11⟩, ⟨12⟩] rfl rfl rfl rfl (by omega) (by norm_num) rfl

/-- C1 counterexample: "0-18446744073709551615" is a well-formed range with
`low ≤ high`, but the code never issues the lookup and never returns a
list: the `for index := low; index <= high; index++` loop over uint64 wraps
at the upper bound and does not terminate (modelled as `none`). -/
theorem parseValidators_range_max_diverges :
    goContains "0-18446744073709551615" '-' = true
    ∧ goSplit "0-18446744073709551615" '-' = ["0", "18446744073709551615"]
    ∧ parseUint64 "0" = .ok 0
    ∧ parseUint64 "18446744073709551615" = .ok (2 ^ 64 - 1)
    ∧ (0 : Nat) ≤ 2 ^ 64 - 1
    ∧ ParseValidators noAccountEnv fixedProvider ["0-18446744073709551615"] "head"
        = none :=
  ⟨rfl, rfl, rfl, rfl, Nat.zero_le _, rfl⟩

/-! ### C2: malformed identifiers -/

/-- C2: malformed identifiers fail with exactly the corresponding error and
nothing else (no provider call is issued): a dash-containing string that
does not split into exactly two parts fails with the malformed-range error;
a range endpoint failing uint64 parsing fails with the invalid-range-bound
error; a non-numeric bare token fails with the invalid-index error; a
0x-prefixed string with bad hex fails with the invalid-public-key error. -/
theorem parse_malformed_errors
    (env : AccountEnv) (p : ValidatorsProvider) (stateID : String) :
    (∀ s, goContains s '-' = true → (goSplit s '-').length ≠ 2 →
      ParseValidators env p [s] stateID =
        some (.error (.errorf1 "invalid range " s), []))
    ∧ (∀ s b0 b1 k, goContains s '-' = true → goSplit s '-' = [b0, b1] →
      parseUint64 b0 = .error k →
      ParseValidators env p [s] stateID =
        some (.error (.wrap "invalid range start" (.numError "ParseUint" b0 k)), []))
    ∧ (∀ s b0 b1 low k, goContains s '-' = true → goSplit s '-' = [b0, b1] →
      parseUint64 b0 = .ok low → parseUint64 b1 = .error k →
      ParseValidators env p [s] stateID =
        some (.error (.wrap "invalid range end" (.numError "ParseUint" b1 k)), []))
    ∧ (∀ s k, goStartsWith0x s = false → goContains s '/' = false →
      parseUint64 s = .error k →
      ParseValidator env p s stateID =
        (.error (.wrap "failed to parse validator index"
          (.numError "ParseUint" s k)), []))
    ∧ (∀ s e, goStartsWith0x s = true →
      hexDecode (goTrim0x s) = .error e →
      ParseValidator env p s stateID =
        (.error (.wrap "failed to parse validator public key" e), [])) := by
  refine ⟨?_, ?_, ?_, ?_, ?_⟩
  · intro s hc hlen
    rcases hsp : goSplit s '-' with _ | ⟨a, _ | ⟨b, _ | ⟨c, rest⟩⟩⟩ <;>
      rw [hsp] at hlen <;>
      simp_all [ParseValidators, parseValidatorsStep, hc, hsp]
  · intro s b0 b1 k hc hsp hk
    simp [ParseValidators, parseValidatorsStep, hc, hsp, hk]
  · intro s b0 b1 low k hc hsp hl hk
    simp [ParseValidators, parseValidatorsStep, hc, hsp, hl, hk]
  · intro s k h0x hsl hk
    simp [ParseValidator, h0x, hsl, hk]
  · intro s e h0x he
    simp [ParseValidator, h0x, he]

/-- C2 witness: the four failure modes at the concrete inputs "1-2-3",
"a-3", "3-b", "abc" and "0xzz". -/
theorem parse_malformed_errors_witness :
    ParseValidators noAccountEnv fixedProvider ["1-2-3"] "head" =
      some (.error (.errorf1 "invalid range " "1-2-3"), [])
    ∧ ParseValidators noAccountEnv fixedProvider ["a-3"] "head" =
      some (.error (.wrap "invalid range start"
        (.numError "ParseUint" "a" .invalidSyntax)), [])
    ∧ ParseValidators noAccountEnv fixedProvider ["3-b"] "head" =
      some (.error (.wrap "invalid range end"
        (.numError "ParseUint" "b" .invalidSyntax)), [])
    ∧ ParseValidator noAccountEnv fixedProvider "abc" "head" =
      (.error (.wrap "failed to parse validator index"
        (.numError "ParseUint" "abc" .invalidSyntax)), [])
    ∧ ParseValidator noAccountEnv fixedProvider "0xzz" "head" =
      (.error (.wrap "failed to parse validator public key"
        (.hexInvalidByte 'z')), []) :=
  ⟨(parse_malformed_errors noAccountEnv fixedProvider "head").1 "1-2-3"
      rfl (by decide),
   (parse_malformed_errors noAccountEnv fixedProvider "head").2.1 "a-3"
      "a" "3" .invalidSyntax rfl rfl rfl,
   (parse_malformed_errors noAccountEnv fixedProvider "head").2.2.1 "3-b"
      "3" "b" 3 .invalidSyntax rfl rfl rfl rfl,
   (parse_malformed_errors noAccountEnv fixedProvider "head").2.2.2.1 "abc"
      .invalidSyntax rfl rfl rfl,
   (parse_malformed_errors noAccountEnv fixedProvider "head").2.2.2.2 "0xzz"
      (.hexInvalidByte 'z') rfl rfl⟩

/-! ### C3: empty range low > high -/

/-- C3 (amended): for a range identifier "low-high" with `low > high`, the
index loop builds the empty index set and the provider is still consulted;
provided the provider answers the empty query with an empty match map, the
call succeeds and the identifier contributes zero entries.  (The amendment
conditions on the provider's answer: the original claim is unconditional,
but the code does issue the lookup, see the counterexample.) -/
theorem parseValidators_empty_range
    (env : AccountEnv) (p : ValidatorsProvider) (stateID s b0 b1 : String)
    (low high : Nat)
    (hc : goContains s '-' = true)
    (hsp : goSplit s '-' = [b0, b1])
    (hl : parseUint64 b0 = .ok low)
    (hh : parseUint64 b1 = .ok high)
    (hgt : high < low)
    (hp : p.validators stateID [] = .ok []) :
    ParseValidators env p [s] stateID = some (.ok [], [.byIndex stateID []]) := by
  have hcond : ¬(low ≤ high ∧ high = 18446744073709551615) := by omega
  have hr : high + 1 - low = 0 := by omega
  simp [ParseValidators, parseValidatorsStep, hc, hsp, hl, hh, hcond, hr, hp]

/-- C3 witness: "5-3" against a provider answering the empty query with an
empty map. -/
theorem parseValidators_empty_range_witness :
    ParseValidators noAccountEnv emptyProvider ["5-3"] "head" =
      some (.ok [], [.byIndex "head" []]) :=
  parseValidators_empty_range noAccountEnv emptyProvider "head" "5-3" "5" "3"
    5 3 rfl rfl rfl rfl (by omega) rfl

/-- C3 counterexample: for "5-3" the code still issues an index lookup with
the empty index set, and the identifier's contribution is whatever the
provider returns for it — here one record — so the claim that the
identifier always contributes zero entries is false. -/
theorem parseValidators_empty_range_counterexample :
    parseUint64 "5" = .ok 5 ∧ parseUint64 "3" = .ok 3 ∧ (3 : Nat) < 5
    ∧ ParseValidators noAccountEnv phantomProvider ["5-3"] "head" =
        some (.ok [⟨9⟩], [.byIndex "head" []]) :=
  ⟨rfl, rfl, by omega, rfl⟩

/-! ### C4: dispatch order of ParseValidator -/

/-- C4: `ParseValidator` dispatches with the first matching rule winning:
a string starting with "0x" takes the public-key branch and (when the hex
decodes) issues exactly one public-key lookup with a one-element key set;
otherwise a string containing "/" takes the account-path branch (resolve
wallet and account, take the best public key, then one public-key lookup
with a one-element key set); otherwise the string is parsed as a decimal
index and (on success) exactly one index lookup with the singleton index
set is issued. -/
theorem parseValidator_dispatch
    (env : AccountEnv) (p : ValidatorsProvider) (stateID : String) :
    (∀ s data, goStartsWith0x s = true →
      hexDecode (goTrim0x s) = .ok data →
      (ParseValidator env p s stateID).2 =
        [.byPubKey stateID [copyToFixed 48 data]])
    ∧ (∀ s w a bytes, goStartsWith0x s = false → goContains s '/' = true →
      env.walletAndAccountFromPath s = .ok (w, a) →
      env.bestPublicKey a = .ok bytes →
      (ParseValidator env p s stateID).2 =
        [.byPubKey stateID [copyToFixed 48 bytes]])
    ∧ (∀ s i, goStartsWith0x s = false → goContains s '/' = false →
      parseUint64 s = .ok i →
      (ParseValidator env p s stateID).2 = [.byIndex stateID [i]]) := by
  refine ⟨?_, ?_, ?_⟩
  · intro s data h0x hd
    rcases hpk : p.validatorsByPubKey stateID [copyToFixed 48 data] with e | vs <;>
      simp [ParseValidator, h0x, hd, hpk]
  · intro s w a bytes h0x hsl hwa hb
    rcases hpk : p.validatorsByPubKey stateID [copyToFixed 48 bytes] with e | vs <;>
      simp [ParseValidator, h0x, hsl, hwa, hb, hpk]
  · intro s i h0x hsl hi
    rcases hiv : p.validators stateID [i] with e | vs <;>
      simp [ParseValidator, h0x, hsl, hi, hiv]

/-- C4 witness: dispatch at "0xab" (public key), "wallet/account" (account
path) and "5" (index). -/
theorem parseValidator_dispatch_witness :
    (ParseValidator oneAccountEnv fixedProvider "0xab" "head").2 =
      [.byPubKey "head" [copyToFixed 48 [171]]]
    ∧ (ParseValidator oneAccountEnv fixedProvider "wallet/account" "head").2 =
      [.byPubKey "head" [copyToFixed 48 [1, 2, 3]]]
    ∧ (ParseValidator oneAccountEnv fixedProvider "5" "head").2 =
      [.byIndex "head" [5]] :=
  ⟨(parseValidator_dispatch oneAccountEnv fixedProvider "head").1 "0xab"
      [171] rfl rfl,
   (parseValidator_dispatch oneAccountEnv fixedProvider "head").2.1
      "wallet/account" 0 5 [1, 2, 3] rfl rfl (by simp [oneAccountEnv]) rfl,
   (parseValidator_dispatch oneAccountEnv fixedProvider "head").2.2 "5" 5
      rfl rfl rfl⟩

/-! ### C5: public-key buffer copy -/

/-- C5: for every 0x-prefixed identifier whose remainder hex-decodes, the
decoded bytes are copied into a fixed-size 48-byte buffer: the buffer
always has length 48; with fewer than 48 decoded bytes the trailing bytes
stay zero; with more, only the first 48 are used; neither case is an error
(the public-key lookup is still issued). -/
theorem parseValidator_pubkey_copy
    (env : AccountEnv) (p : ValidatorsProvider) (stateID : String) :
    ∀ s data, goStartsWith0x s = true →
      hexDecode (goTrim0x s) = .ok data →
      (copyToFixed 48 data).length = 48
      ∧ (data.length ≤ 48 →
        copyToFixed 48 data = data ++ List.replicate (48 - data.length) 0)
      ∧ (48 ≤ data.length → copyToFixed 48 data = data.take 48)
      ∧ (ParseValidator env p s stateID).2 =
        [.byPubKey stateID [copyToFixed 48 data]] := by
  intro s data h0x hd
  refine ⟨copyToFixed_length 48 data, ?_, ?_, ?_⟩
  · intro hle
    simp [copyToFixed, List.take_of_length_le hle]
  · intro hge
    simp [copyToFixed, Nat.sub_eq_zero_of_le hge]
  · rcases hpk : p.validatorsByPubKey stateID [copyToFixed 48 data] with e | vs <;>
      simp [ParseValidator, h0x, hd, hpk]

/-- C5 witness: "0xab" decodes to one byte, padded with 47 zero bytes;
"0x" followed by 49 bytes of "ff" is truncated to the first 48. -/
theorem parseValidator_pubkey_copy_witness :
    (copyToFixed 48 [171]).length = 48
    ∧ copyToFixed 48 [171] = [171] ++ List.replicate 47 0
    ∧ (ParseValidator oneAccountEnv fixedProvider "0xab" "head").2 =
      [.byPubKey "head" [copyToFixed 48 [171]]] := by
  have h := parseValidator_pubkey_copy oneAccountEnv fixedProvider "head"
    "0xab" [171] rfl rfl
  exact ⟨h.1, by simpa using h.2.1 (by norm_num), h.2.2.2⟩

/-! ### C6: empty and non-empty lookup results -/

/-- C6: when a lookup succeeds with an empty match map, a non-range
identifier (index, public key, or account path) fails with the
unknown-validator error, while a range identifier contributes zero entries
without failing; when the map is non-empty for a non-range identifier,
`ParseValidator` returns exactly one record, an entry of the map (the
first iterated one). -/
theorem parse_lookup_result_handling
    (env : AccountEnv) (p : ValidatorsProvider) (stateID : String) :
    (∀ s i, goStartsWith0x s = false → goContains s '/' = false →
      parseUint64 s = .ok i → p.validators stateID [i] = .ok [] →
      ParseValidator env p s stateID =
        (.error (.simple "unknown validator"), [.byIndex stateID [i]]))
    ∧ (∀ s data, goStartsWith0x s = true →
      hexDecode (goTrim0x s) = .ok data →
      p.validatorsByPubKey stateID [copyToFixed 48 data] = .ok [] →
      ParseValidator env p s stateID =
        (.error (.simple "unknown validator"),
         [.byPubKey stateID [copyToFixed 48 data]]))
    ∧ (∀ s w a bytes, goStartsWith0x s = false → goContains s '/' = true →
      env.walletAndAccountFromPath s = .ok (w, a) →
      env.bestPublicKey a = .ok bytes →
      p.validatorsByPubKey stateID [copyToFixed 48 bytes] = .ok [] →
      ParseValidator env p s stateID =
        (.error (.simple "unknown validator"),
         [.byPubKey stateID [copyToFixed 48 bytes]]))
    ∧ (∀ s b0 b1 low high, goContains s '-' = true → goSplit s '-' = [b0, b1] →
      parseUint64 b0 = .ok low → parseUint64 b1 = .ok high →
      ¬(low ≤ high ∧ high = 18446744073709551615) →
      p.validators stateID (List.range' low (high + 1 - low)) = .ok [] →
      ParseValidators env p [s] stateID =
        some (.ok [], [.byIndex stateID (List.range' low (high + 1 - low))]))
    ∧ (∀ vs v, firstEntry vs = .ok v → v ∈ vs)
    ∧ (∀ s i v rest, goStartsWith0x s = false → goContains s '/' = false →
      parseUint64 s = .ok i → p.validators stateID [i] = .ok (v :: rest) →
      ParseValidator env p s stateID = (.ok v, [.byIndex stateID [i]])
      ∧ v ∈ v :: rest) := by
  refine ⟨?_, ?_, ?_, ?_, ?_, ?_⟩
  · intro s i h0x hsl hi hiv
    simp [ParseValidator, h0x, hsl, hi, hiv, firstEntry]
  · intro s data h0x hd hpk
    simp [ParseValidator, h0x, hd, hpk, firstEntry]
  · intro s w a bytes h0x hsl hwa hb hpk
    simp [ParseValidator, h0x, hsl, hwa, hb, hpk, firstEntry]
  · intro s b0 b1 low high hc hsp hl hh hcond hp
    simp [ParseValidators, parseValidatorsStep, hc, hsp, hl, hh, hcond, hp]
  · intro vs v h
    cases vs with
    | nil => exact absurd h (by simp [firstEntry])
    | cons w ws =>
      simp only [firstEntry, Except.ok.injEq] at h
      simp [h]
  · intro s i v rest h0x hsl hi hiv
    exact ⟨by simp [ParseValidator, h0x, hsl, hi, hiv, firstEntry], by simp⟩

/-- C6 witness: "5" against the empty-map provider fails with the
unknown-validator error; "10-12" against it contributes zero entries
without failing; "5" against the fixed provider returns the single record
of index 5, an entry of the returned map. -/
theorem parse_lookup_result_handling_witness :
    ParseValidator noAccountEnv emptyProvider "5" "head" =
      (.error (.simple "unknown validator"), [.byIndex "head" [5]])
    ∧ ParseValidators noAccountEnv emptyProvider ["10-12"] "head" =
      some (.ok [], [.byIndex "head" (List.range' 10 (12 + 1 - 10))])
    ∧ (ParseValidator noAccountEnv fixedProvider "5" "head" =
        (.ok ⟨5⟩, [.byIndex "head" [5]]) ∧ Validator.mk 5 ∈ [Validator.mk 5]) :=
  ⟨(parse_lookup_result_handling noAccountEnv emptyProvider "head").1 "5" 5
      rfl rfl rfl rfl,
   (parse_lookup_result_handling noAccountEnv emptyProvider "head").2.2.2.1
      "10-12" "10" "12" 10 12 rfl rfl rfl rfl (by omega) rfl,
   (parse_lookup_result_handling noAccountEnv fixedProvider "head").2.2.2.2.2
      "5" 5 ⟨5⟩ [] rfl rfl rfl rfl⟩

/-! ### C7: fail-fast, atomic result, error wrapping -/

/-- C7 (amended): `ParseValidators` is fail-fast and atomic: if the
processed prefix fails, the whole call returns only that failure with the
calls issued so far and no later element is touched, and no record list
accompanies the error; failures of non-range elements are wrapped with the
offending identifier string, and so are range lookup failures.  (The
amendment drops the universal wrapping claim: range-endpoint parse errors
are wrapped only with "invalid range start"/"invalid range end" and do not
carry the identifier — see the counterexample.) -/
theorem parseValidators_failfast
    (env : AccountEnv) (p : ValidatorsProvider) (stateID : String) :
    (∀ xs ys e calls,
      ParseValidators env p xs stateID = some (.error e, calls) →
      ParseValidators env p (xs ++ ys) stateID = some (.error e, calls))
    ∧ (∀ s e calls, goContains s '-' = false →
      ParseValidator env p s stateID = (.error e, calls) →
      parseValidatorsStep env p stateID s =
        some (.error (.wrap ("unknown validator " ++ s) e), calls)
      ∧ errMentions (.wrap ("unknown validator " ++ s) e) s = true)
    ∧ (∀ s b0 b1 low high e, goContains s '-' = true →
      goSplit s '-' = [b0, b1] →
      parseUint64 b0 = .ok low → parseUint64 b1 = .ok high →
      ¬(low ≤ high ∧ high = 18446744073709551615) →
      p.validators stateID (List.range' low (high + 1 - low)) = .error e →
      ParseValidators env p [s] stateID =
        some (.error (.wrap ("failed to obtain validators " ++ s) e),
              [.byIndex stateID (List.range' low (high + 1 - low))])
      ∧ errMentions (.wrap ("failed to obtain validators " ++ s) e) s = true) := by
  refine ⟨?_, ?_, ?_⟩
  · intro xs ys e calls h
    induction xs generalizing calls with
    | nil => simp [ParseValidators] at h
    | cons x xs' ih =>
      rcases hstep : parseValidatorsStep env p stateID x with _ | ⟨res, cs⟩
      · rw [ParseValidators, hstep] at h
        exact absurd h (by simp)
      · rcases res with e' | vs
        · rw [ParseValidators, hstep] at h
          simp only [Option.some.injEq, Prod.mk.injEq, Except.error.injEq] at h
          rw [List.cons_append, ParseValidators, hstep]
          simp [h.1, h.2]
        · rcases hrest : ParseValidators env p xs' stateID with _ | ⟨res2, cs2⟩
          · rw [ParseValidators, hstep, hrest] at h
            exact absurd h (by simp)
          · rcases res2 with e2 | vs2
            · rw [ParseValidators, hstep, hrest] at h
              simp only [Option.some.injEq, Prod.mk.injEq,
                Except.error.injEq] at h
              rw [List.cons_append, ParseValidators, hstep,
                ih cs2 (by rw [hrest, h.1])]
              simp [h.2]
            · rw [ParseValidators, hstep, hrest] at h
              exact absurd h (by simp)
  · intro s e calls hnc hpv
    exact ⟨by simp [parseValidatorsStep, hnc, hpv],
      errMentions_wrap "unknown validator " s e⟩
  · intro s b0 b1 low high e hc hsp hl hh hcond hp
    exact ⟨by simp [ParseValidators, parseValidatorsStep, hc, hsp, hl, hh,
        hcond, hp],
      errMentions_wrap "failed to obtain validators " s e⟩

/-- C7 witness: resolving ["a-3", "5"] fails with the failure of the first
element alone and no lookup happens for "5"; a failing bare token "abc" is
wrapped with its identifier; a range lookup failure for "10-12" is wrapped
with its identifier. -/
theorem parseValidators_failfast_witness :
    ParseValidators noAccountEnv fixedProvider (["a-3"] ++ ["5"]) "head" =
      some (.error (.wrap "invalid range start"
        (.numError "ParseUint" "a" .invalidSyntax)), [])
    ∧ (parseValidatorsStep noAccountEnv fixedProvider "head" "abc" =
        some (.error (.wrap ("unknown validator " ++ "abc")
          (.wrap "failed to parse validator index"
            (.numError "ParseUint" "abc" .invalidSyntax))), [])
      ∧ errMentions (.wrap ("unknown validator " ++ "abc")
          (.wrap "failed to parse validator index"
            (.numError "ParseUint" "abc" .invalidSyntax))) "abc" = true)
    ∧ (ParseValidators noAccountEnv failingProvider ["10-12"] "head" =
        some (.error (.wrap ("failed to obtain validators " ++ "10-12")
          (.simple "connection refused")),
          [.byIndex "head" (List.range' 10 (12 + 1 - 10))])
      ∧ errMentions (.wrap ("failed to obtain validators " ++ "10-12")
          (.simple "connection refused")) "10-12" = true) :=
  ⟨(parseValidators_failfast noAccountEnv fixedProvider "head").1
      ["a-3"] ["5"] _ [] rfl,
   (parseValidators_failfast noAccountEnv fixedProvider "head").2.1
      "abc" _ [] rfl rfl,
   (parseValidators_failfast noAccountEnv failingProvider "head").2.2
      "10-12" "10" "12" 10 12 (.simple "connection refused")
      rfl rfl rfl rfl (by omega) rfl⟩

/-- C7 counterexample: resolving ["a-b"] fails on the range-start parse
error, and the rendered error chain ("invalid range start:
strconv.ParseUint: parsing ..." followed by the bound and cause) does not
contain the offending identifier "a-b". -/
theorem parseValidators_failfast_counterexample :
    ParseValidators noAccountEnv fixedProvider ["a-b"] "head" =
      some (.error (.wrap "invalid range start"
        (.numError "ParseUint" "a" .invalidSyntax)), [])
    ∧ errMentions (.wrap "invalid range start"
        (.numError "ParseUint" "a" .invalidSyntax)) "a-b" = false :=
  ⟨rfl, rfl⟩

/-! ### C8: purity and determinism -/

/-- C8: the resolver is a pure mapping from its inputs and the behaviour
of its collaborators: two runs of `ParseValidators` on the same identifier
list and state identifier, against collaborators with the same pointwise
(deterministic) behaviour, produce the same result — the same record list
or the same failure, with the same call trace.  (Input mutation does not
exist in the functional embedding; the code never assigns to its
arguments.) -/
theorem parseValidators_deterministic
    (env1 env2 : AccountEnv) (p1 p2 : ValidatorsProvider)
    (l : List String) (stateID : String)
    (hw : ∀ s, env1.walletAndAccountFromPath s = env2.walletAndAccountFromPath s)
    (hb : ∀ a, env1.bestPublicKey a = env2.bestPublicKey a)
    (hv : ∀ st idxs, p1.validators st idxs = p2.validators st idxs)
    (hk : ∀ st ks, p1.validatorsByPubKey st ks = p2.validatorsByPubKey st ks) :
    ParseValidators env1 p1 l stateID = ParseValidators env2 p2 l stateID := by
  obtain ⟨w1, b1⟩ := env1
  obtain ⟨w2, b2⟩ := env2
  obtain ⟨v1, k1⟩ := p1
  obtain ⟨v2, k2⟩ := p2
  have hw2 : w1 = w2 := funext hw
  have hb2 : b1 = b2 := funext hb
  have hv2 : v1 = v2 := funext fun st => funext fun idxs => hv st idxs
  have hk2 : k1 = k2 := funext fun st => funext fun ks => hk st ks
  subst hw2 hb2 hv2 hk2
  rfl

/-- C8 witness: two runs against the same concrete collaborators agree. -/
theorem parseValidators_deterministic_witness :
    ParseValidators noAccountEnv fixedProvider ["5", "10-12"] "head" =
      ParseValidators noAccountEnv fixedProvider ["5", "10-12"] "head" :=
  parseValidators_deterministic noAccountEnv noAccountEnv
    fixedProvider fixedProvider ["5", "10-12"] "head"
    (fun _ => rfl) (fun _ => rfl) (fun _ _ => rfl) (fun _ _ => rfl)

/-! ### C9: empty range still issues the lookup -/

/-- C9: for a range identifier "low-high" with low > high, `ParseValidators`
still issues one index lookup, with the empty index set; the identifier's
contribution is whatever the provider returns for the empty set, and a
provider failure on that call fails the whole resolution. -/
theorem parseValidators_empty_range_calls
    (env : AccountEnv) (p : ValidatorsProvider) (stateID s b0 b1 : String)
    (low high : Nat)
    (hc : goContains s '-' = true)
    (hsp : goSplit s '-' = [b0, b1])
    (hl : parseUint64 b0 = .ok low)
    (hh : parseUint64 b1 = .ok high)
    (hgt : high < low) :
    (∀ vs, p.validators stateID [] = .ok vs →
      ParseValidators env p [s] stateID =
        some (.ok vs, [.byIndex stateID []]))
    ∧ (∀ e, p.validators stateID [] = .error e →
      ParseValidators env p [s] stateID =
        some (.error (.wrap ("failed to obtain validators " ++ s) e),
              [.byIndex stateID []])) := by
  have hcond : ¬(low ≤ high ∧ high = 18446744073709551615) := by omega
  have hr : high + 1 - low = 0 := by omega
  constructor
  · intro vs hp
    simp [ParseValidators, parseValidatorsStep, hc, hsp, hl, hh, hcond, hr, hp]
  · intro e hp
    simp [ParseValidators, parseValidatorsStep, hc, hsp, hl, hh, hcond, hr, hp]

/-- C9 witness: "7-2" against a provider that returns one record for the
empty index set contributes that record; against a failing provider the
whole call fails wrapped with the identifier. -/
theorem parseValidators_empty_range_calls_witness :
    ParseValidators noAccountEnv phantomProvider ["7-2"] "head" =
      some (.ok [⟨9⟩], [.byIndex "head" []])
    ∧ ParseValidators noAccountEnv failingProvider ["7-2"] "head" =
      some (.error (.wrap ("failed to obtain validators " ++ "7-2")
        (.simple "connection refused")), [.byIndex "head" []]) :=
  ⟨(parseValidators_empty_range_calls noAccountEnv phantomProvider "head"
      "7-2" "7" "2" 7 2 rfl rfl rfl rfl (by omega)).1 [⟨9⟩] rfl,
   (parseValidators_empty_range_calls noAccountEnv failingProvider "head"
      "7-2" "7" "2" 7 2 rfl rfl rfl rfl (by omega)).2
      (.simple "connection refused") rfl⟩

/-! ### C10: wallet shared-import input collection -/

namespace WalletSharedImport

/-- C10: `input` fails exactly when a required input is missing, checking
in a fixed order with the first failure winning: non-empty "remote" first,
then zero "timeout", then empty "file", then an unreadable file, then an
empty "shares" list; on success the returned data carries the configured
timeout, the quiet/verbose/debug flags, the file's contents and the
(non-empty) shares list. -/
theorem input_required_checks
    (cfg : Config) (rf : String → Except Err (List Nat)) :
    (cfg.remote ≠ "" →
      input cfg rf =
        .error (.simple "wallet import not available for remote wallets"))
    ∧ (cfg.remote = "" → cfg.timeout = 0 →
      input cfg rf = .error (.simple "timeout is required"))
    ∧ (cfg.remote = "" → cfg.timeout ≠ 0 → cfg.file = "" →
      input cfg rf = .error (.simple "file is required"))
    ∧ (∀ e, cfg.remote = "" → cfg.timeout ≠ 0 → cfg.file ≠ "" →
      rf cfg.file = .error e →
      input cfg rf = .error (.wrap "failed to read wallet import file" e))
    ∧ (∀ bs, cfg.remote = "" → cfg.timeout ≠ 0 → cfg.file ≠ "" →
      rf cfg.file = .ok bs → cfg.shares = [] →
      input cfg rf = .error (.simple "failed to obtain shares"))
    ∧ (∀ bs, cfg.remote = "" → cfg.timeout ≠ 0 → cfg.file ≠ "" →
      rf cfg.file = .ok bs → cfg.shares ≠ [] →
      input cfg rf =
        .ok ⟨cfg.timeout, cfg.quiet, cfg.verbose, cfg.debug, bs, cfg.shares⟩)
    ∧ ((∃ d, input cfg rf = .ok d) ↔
      (cfg.remote = "" ∧ cfg.timeout ≠ 0 ∧ cfg.file ≠ ""
        ∧ (∃ bs, rf cfg.file = .ok bs) ∧ cfg.shares ≠ [])) := by
  refine ⟨?_, ?_, ?_, ?_, ?_, ?_, ?_⟩
  · intro h1
    simp [input, h1]
  · intro h1 h2
    simp [input, h1, h2]
  · intro h1 h2 h3
    simp [input, h1, h2, h3]
  · intro e h1 h2 h3 h4
    simp [input, h1, h2, h3, h4]
  · intro bs h1 h2 h3 h4 h5
    simp [input, h1, h2, h3, h4, h5]
  · intro bs h1 h2 h3 h4 h5
    simp [input, h1, h2, h3, h4, h5]
  · constructor
    · rintro ⟨d, hd⟩
      by_cases h1 : cfg.remote = ""
      · by_cases h2 : cfg.timeout = 0
        · simp [input, h1, h2] at hd
        · by_cases h3 : cfg.file = ""
          · simp [input, h1, h2, h3] at hd
          · rcases hrf : rf cfg.file with e | bs
            · simp [input, h1, h2, h3, hrf] at hd
            · by_cases h5 : cfg.shares = []
              · simp [input, h1, h2, h3, hrf, h5] at hd
              · exact ⟨h1, h2, h3, ⟨bs, rfl⟩, h5⟩
      · simp [input, h1] at hd
    · rintro ⟨h1, h2, h3, ⟨bs, hbs⟩, h5⟩
      exact ⟨⟨cfg.timeout, cfg.quiet, cfg.verbose, cfg.debug, bs, cfg.shares⟩,
        by simp [input, h1, h2, h3, hbs, h5]⟩

/-- C10 witness: a complete configuration yields the collected data. -/
theorem input_required_checks_witness :
    input ⟨"", 1000000000, false, true, false, "wallet.json", ["share1"]⟩
        (fun _ => .ok [7, 8]) =
      .ok ⟨1000000000, false, true, false, [7, 8], ["share1"]⟩ :=
  (input_required_checks
      ⟨"", 1000000000, false, true, false, "wallet.json", ["share1"]⟩
      (fun _ => .ok [7, 8])).2.2.2.2.2.1 [7, 8] rfl (by norm_num)
    (by simp) rfl (by simp)

end WalletSharedImport

end Ethdo
